import Mathlib

/-!
Verification of the ezdxf bin-packing add-on (src/ezdxf/addons/binpacking.py).

The Python module is shallowly embedded: Python floats are modelled as
rationals, Python objects as structures with value semantics, and fallible
Python calls (those that can raise) as Option / Except values. Randomness
and the wall clock, which the module reads from the random and time stdlib
modules, are injected explicitly as streams, as the design notes of the
specification require for reproducibility.
-/

attribute [local semireducible] Rat.mul Rat.add Rat.sub Rat.inv

deriving instance DecidableEq for Except

namespace BinPacking

/-- Python round(): round half to even (bankers rounding), as used by the
schematic picker through the builtin round(). -/
def pyRound (q : ℚ) : ℤ :=
  if q - q.floor < 1/2 then q.floor
  else if 1/2 < q - q.floor then q.floor + 1
  else if q.floor % 2 = 0 then q.floor else q.floor + 1

/-- RotationType: the six orientation states, in definition order. -/
inductive RotationType where
  | WHD | HWD | HDW | DHW | DWH | WDH
deriving DecidableEq, Repr, Inhabited

/-- Bin.rotations for the 3D Bin: iterating the RotationType enum yields all
six members in definition order. -/
def rotationsList : List RotationType :=
  [.WHD, .HWD, .HDW, .DHW, .DWH, .WDH]

/-- An axis-aligned bounding box given by its minimum and maximum corner. -/
structure BBox where
  extmin : ℚ × ℚ × ℚ
  extmax : ℚ × ℚ × ℚ
deriving DecidableEq, Repr

/-- Modelled from the spec: the geometry primitives (ezdxf.math.BoundingBox)
are external to the packing module. The intersection test of two
axis-aligned bounding boxes is strict overlap on every axis; touching
boxes do not intersect (this is the documented ezdxf behaviour and is what
lets the heuristic seat items flush against each other). -/
def BBox.intersect (a b : BBox) : Bool :=
  decide (a.extmin.1 < b.extmax.1 ∧ b.extmin.1 < a.extmax.1 ∧
          a.extmin.2.1 < b.extmax.2.1 ∧ b.extmin.2.1 < a.extmax.2.1 ∧
          a.extmin.2.2 < b.extmax.2.2 ∧ b.extmin.2.2 < a.extmax.2.2)

/-- Item: a placeable box. The payload is an opaque caller handle, modelled
as a natural number. The lazily cached bounding box of the source is an
optimisation that always yields the box computed by Item.bbox below, so the
cache and its dirty flag are not part of the state. -/
structure Item where
  payload : ℕ
  width : ℚ
  height : ℚ
  depth : ℚ
  weight : ℚ
  rotation_type : RotationType
  position : ℚ × ℚ × ℚ
deriving DecidableEq, Repr

namespace Item

/-- Item.get_volume: orientation independent. -/
def get_volume (i : Item) : ℚ := i.width * i.height * i.depth

/-- Item.get_dimension: the (w, h, d) triple after applying the current
rotation. -/
def get_dimension (i : Item) : ℚ × ℚ × ℚ :=
  match i.rotation_type with
  | .WHD => (i.width, i.height, i.depth)
  | .HWD => (i.height, i.width, i.depth)
  | .HDW => (i.height, i.depth, i.width)
  | .DHW => (i.depth, i.height, i.width)
  | .DWH => (i.depth, i.width, i.height)
  | .WDH => (i.width, i.depth, i.height)

/-- Item._update_bbox: BoundingBox([position, position + dimension]); the
ezdxf BoundingBox constructor takes componentwise extrema of its points. -/
def bbox (i : Item) : BBox :=
  let d := i.get_dimension
  let p := i.position
  let q : ℚ × ℚ × ℚ := (p.1 + d.1, p.2.1 + d.2.1, p.2.2 + d.2.2)
  { extmin := (min p.1 q.1, min p.2.1 q.2.1, min p.2.2 q.2.2),
    extmax := (max p.1 q.1, max p.2.1 q.2.1, max p.2.2 q.2.2) }

end Item

/-- Bin: a fixed-capacity container with its placed items in insertion
order. The 3D Box variant; Box adds nothing to Bin. -/
structure Bin where
  name : String
  width : ℚ
  height : ℚ
  depth : ℚ
  max_weight : ℚ
  items : List Item
deriving DecidableEq, Repr

namespace Bin

/-- Bin.get_capacity. -/
def get_capacity (b : Bin) : ℚ := b.width * b.height * b.depth

/-- Bin.get_total_weight. -/
def get_total_weight (b : Bin) : ℚ := (b.items.map Item.weight).sum

/-- Bin.get_total_volume. -/
def get_total_volume (b : Bin) : ℚ := (b.items.map Item.get_volume).sum

/-- Bin.get_fill_ratio: the source divides total volume by capacity with no
zero guard, so a zero-capacity bin raises ZeroDivisionError, modelled as
none. -/
def get_fill_ratio (b : Bin) : Option ℚ :=
  if b.get_capacity = 0 then none
  else some (b.get_total_volume / b.get_capacity)

/-- The rotation loop of Bin.put_item. The threaded item mirrors the
mutation of the Python item object: each iteration overwrites its rotation
and keeps its position at the pivot; when every rotation has been refused
the position is restored to its pre-call value but the rotation is left as
the loop set it. -/
def put_item_loop (b : Bin) (pivot origPos : ℚ × ℚ × ℚ) :
    Item → List RotationType → Bool × Bin × Item
  | item, [] => (false, b, { item with position := origPos })
  | item, rt :: rest =>
    let it : Item := { item with rotation_type := rt, position := pivot }
    let d := it.get_dimension
    if b.width < pivot.1 + d.1 ∨ b.height < pivot.2.1 + d.2.1 ∨
        b.depth < pivot.2.2 + d.2.2 then
      put_item_loop b pivot origPos it rest
    else if (b.items.any fun j => it.bbox.intersect j.bbox) = false ∧
        b.get_total_weight + it.weight ≤ b.max_weight then
      (true, { b with items := b.items ++ [it] }, it)
    else
      put_item_loop b pivot origPos it rest

/-- Bin.put_item: try to seat the item with its minimum corner at the pivot
in every supported rotation; returns the success flag together with the
resulting bin and item states. -/
def put_item (b : Bin) (item : Item) (pivot : ℚ × ℚ × ℚ) : Bool × Bin × Item :=
  put_item_loop b pivot item.position { item with position := pivot } rotationsList

end Bin

/-- Anchor right of a placed item (Axis.WIDTH case of Packer.pack_to_bin). -/
def pivot_width (pi : Item) : ℚ × ℚ × ℚ :=
  (pi.position.1 + pi.get_dimension.1, pi.position.2.1, pi.position.2.2)

/-- Anchor above a placed item (Axis.HEIGHT case of Packer.pack_to_bin). -/
def pivot_height (pi : Item) : ℚ × ℚ × ℚ :=
  (pi.position.1, pi.position.2.1 + pi.get_dimension.2.1, pi.position.2.2)

/-- Anchor on top of a placed item (Axis.DEPTH case of Packer.pack_to_bin). -/
def pivot_depth (pi : Item) : ℚ × ℚ × ℚ :=
  (pi.position.1, pi.position.2.1, pi.position.2.2 + pi.get_dimension.2.2)

/-- The candidate anchors of Packer.pack_to_bin in search order: outer loop
over the axes WIDTH, HEIGHT, DEPTH, inner loop over the placed items in
insertion order. -/
def pack_pivots (box : Bin) : List (ℚ × ℚ × ℚ) :=
  box.items.map pivot_width ++ box.items.map pivot_height ++
    box.items.map pivot_depth

/-- The anchor loop of Packer.pack_to_bin; the item state is threaded
through failed put_item calls exactly as the Python object is mutated. -/
def pack_to_bin_loop (box : Bin) : Item → List (ℚ × ℚ × ℚ) → Bool × Bin × Item
  | item, [] => (false, box, item)
  | item, pv :: rest =>
    let r := box.put_item item pv
    if r.1 then r else pack_to_bin_loop box r.2.2 rest

/-- Packer.pack_to_bin (3D): an empty bin is tried at the start position
only, otherwise every candidate anchor next to a placed item is tried and
the first success wins. -/
def pack_to_bin (box : Bin) (item : Item) : Bool × Bin × Item :=
  if box.items.isEmpty then box.put_item item (0, 0, 0)
  else pack_to_bin_loop box item (pack_pivots box)

/-- schematic_picker: yields the elements of the input list in the order
given by the pick schema. Each step consumes one pick value v and pops the
element at index round(abs(v) * (remaining - 1)); an exhausted schema with
elements remaining raises ValueError("not enough pick values"), and a
computed index beyond the remaining range raises the IndexError of
list.pop, reported as ValueError("pick values have to be in range [0, 1]").
Errors are modelled with Except. -/
def schematic_picker {α : Type} : List α → List ℚ → Except String (List α)
  | [], _ => .ok []
  | _ :: _, [] => .error "not enough pick values"
  | x :: xs, value :: schema =>
    let items := x :: xs
    let idx := (pyRound (|value| * ((items.length - 1 : ℕ) : ℚ))).toNat
    if idx < items.length then
      match schematic_picker (items.eraseIdx idx) schema with
      | .ok rest => .ok (items.getD idx x :: rest)
      | .error e => .error e
    else
      .error "pick values have to be in range [0, 1]"

/-- The 3D Packer state: bins, the not yet fitted items, and the one-way
init flag. -/
structure Packer where
  bins : List Bin
  items : List Item
  init_state : Bool
deriving DecidableEq, Repr

namespace Packer

/-- AbstractPacker.is_packed. -/
def is_packed (p : Packer) : Bool := !p.init_state

/-- AbstractPacker.get_capacity. -/
def get_capacity (p : Packer) : ℚ := (p.bins.map Bin.get_capacity).sum

/-- AbstractPacker.get_total_weight. -/
def get_total_weight (p : Packer) : ℚ := (p.bins.map Bin.get_total_weight).sum

/-- AbstractPacker.get_total_volume. -/
def get_total_volume (p : Packer) : ℚ := (p.bins.map Bin.get_total_volume).sum

/-- AbstractPacker.get_fill_ratio: unlike Bin.get_fill_ratio this one guards
the zero-capacity case and returns 0.0 for it. -/
def get_fill_ratio (p : Packer) : ℚ :=
  if p.get_capacity = 0 then 0 else p.get_total_volume / p.get_capacity

/-- AbstractPacker.copy: refuses a packed packer and bins that already hold
items; Python deep-clones bins and items, which under value semantics
returns an equal packer in init state. -/
def copy (p : Packer) : Except String Packer :=
  if p.is_packed then .error "cannot copy packed state"
  else if (p.bins.all fun b => b.items.isEmpty) = false then
    .error "bins contain data in unpacked state"
  else .ok { bins := p.bins, items := p.items, init_state := true }

end Packer

/-- _smaller_first on the bin list: bins.sort(key=get_capacity). The Python
sort is stable; a stable insertion sort produces the identical list. -/
def smaller_first_bins (bins : List Bin) : List Bin :=
  bins.insertionSort fun a b => a.get_capacity ≤ b.get_capacity

/-- _smaller_first on the item list: items.sort(key=get_volume). -/
def smaller_first_items (items : List Item) : List Item :=
  items.insertionSort fun a b => a.get_volume ≤ b.get_volume

/-- The bins yielded by the bin-schema schematic_picker inside
schematic_pack, tagged with their index in the sorted bin list (standing
for Python object identity). The bins are first sorted ascending by
_smaller_first; an omitted bin schema is itertools.repeat(1.0), of which
exactly one value per bin is consumed. -/
def schematic_pack_picked_bins (p : Packer) (bin_schema : Option (List ℚ)) :
    Except String (List (ℕ × Bin)) :=
  let bins := smaller_first_bins p.bins
  schematic_picker bins.enum (bin_schema.getD (List.replicate bins.length 1))

/-- The inner item loop of AbstractPacker._pack for one bin: every picked
item is tried with pack_to_bin; the returned list collects the picked item
values that were placed (these are removed from packer.items). -/
def pack_items_into (box : Bin) : List Item → Bin × List Item
  | [] => (box, [])
  | it :: rest =>
    let r := pack_to_bin box it
    if r.1 then
      let s := pack_items_into r.2.1 rest
      (s.1, it :: s.2)
    else
      let s := pack_items_into box rest
      (s.1, s.2)

/-- AbstractPacker.schematic_pack: sorts bins and items ascending in place,
then drives _pack with two schematic_picker generators. Because _pack
iterates the item generator inside the loop over the bin generator, the
item generator is exhausted by the first yielded bin and every later bin
receives no items. _init_state is cleared by _pack; an error raised by a
picker aborts the call (the exception propagates to the caller). -/
def schematic_pack (p : Packer) (item_schema : List ℚ)
    (bin_schema : Option (List ℚ)) : Except String Packer := do
  let bins := smaller_first_bins p.bins
  let items := smaller_first_items p.items
  let pbins ← schematic_pack_picked_bins p bin_schema
  match pbins with
  | [] => .ok { bins := bins, items := items, init_state := false }
  | (i, b) :: _ => do
    let pitems ← schematic_picker items item_schema
    let s := pack_items_into b pitems
    .ok { bins := bins.set i s.1,
          items := s.2.foldl (fun acc it => acc.erase it) items,
          init_state := false }

/-- Gene: a chromosome of pick values with an optional cached fitness.
The source keeps the intended length separately from the data array and
revalidates the data after every replacement. -/
structure Gene where
  length : ℕ
  data : List ℚ
  fitness : Option ℚ
deriving DecidableEq, Repr

instance : Inhabited Gene := ⟨⟨0, [], none⟩⟩

namespace Gene

/-- Gene(length, value): constant gene; a value outside [0, 1] raises. -/
def init (length : ℕ) (value : ℚ) : Except String Gene :=
  if 0 ≤ value ∧ value ≤ 1 then
    .ok { length := length, data := List.replicate length value, fitness := none }
  else .error "data value out of range"

/-- Gene._check_valid_data applied to a candidate data list. -/
def check_valid_data (g : Gene) : Except String Gene :=
  if g.data.length ≠ g.length then .error "invalid data count"
  else if (g.data.all fun v => 0 ≤ v ∧ v ≤ 1) = false then
    .error "data value out of range"
  else .ok g

/-- Gene.copy: deepcopy, the identity under value semantics. -/
def copy (g : Gene) : Gene := g

/-- Gene.replace_back: the slice assignment data[-len(part):] = part.
A negative Python slice index clamps at 0, and -0 is 0, so an empty part
replaces the whole list with nothing; afterwards the data is revalidated
and the fitness tainted. -/
def replace_back (g : Gene) (part : List ℚ) : Except String Gene :=
  let newData :=
    if part.length = 0 then []
    else g.data.take (g.data.length - part.length) ++ part
  check_valid_data { g with data := newData, fitness := none }

/-- Gene.mutate_at: flip the pick value at the index and taint. -/
def mutate_at (g : Gene) (index : ℕ) : Gene :=
  { g with data := g.data.set index (1 - g.data.getD index 0), fitness := none }

end Gene

/-- recombine_genes: single-point crossover, swapping the tails from the
split index via replace_back on both genes. -/
def recombine_genes (gene1 gene2 : Gene) (index : ℕ) :
    Except String (Gene × Gene) := do
  let part1 := gene1.data.drop index
  let part2 := gene2.data.drop index
  let g1 ← gene1.replace_back part2
  let g2 ← gene2.replace_back part1
  .ok (g1, g2)

/-- Modelled from the spec: the pseudo-random source of the random stdlib
module, which the design notes require to be injectable. Three streams
hold the successive results of random.random(), random.randrange(0, n)
(reduced modulo n) and the draw positions used by random.choices. -/
structure RandState where
  floats : ℕ → ℚ
  fpos : ℕ
  ranges : ℕ → ℕ
  rpos : ℕ
  choices : ℕ → ℕ
  cpos : ℕ

/-- Next random.random() result. -/
def nextFloat (r : RandState) : ℚ × RandState :=
  (r.floats r.fpos, { r with fpos := r.fpos + 1 })

/-- Next random.randrange(0, n) result; an empty range raises ValueError. -/
def nextRange (n : ℕ) (r : RandState) : Except String (ℕ × RandState) :=
  if n = 0 then .error "empty range for randrange()"
  else .ok (r.ranges r.rpos % n, { r with rpos := r.rpos + 1 })

/-- The per-index mutation loop of Gene.mutate: one random.random() roll
per position, flipping the value when the roll is below the rate. -/
def mutate_loop (rate : ℚ) : List ℕ → Gene → RandState → Gene × RandState
  | [], g, r => (g, r)
  | i :: rest, g, r =>
    let v := nextFloat r
    if v.1 < rate then mutate_loop rate rest (g.mutate_at i) v.2
    else mutate_loop rate rest g v.2

/-- Gene.mutate. -/
def Gene.mutate (g : Gene) (rate : ℚ) (r : RandState) : Gene × RandState :=
  mutate_loop rate (List.range g.length) g r

/-- WheelOfFortune: genes with their selection weights. -/
structure WheelOfFortune where
  items : List Gene
  weights : List ℚ
deriving DecidableEq, Repr

/-- The error message of a failed computation, if any. -/
def exceptError {α : Type} : Except String α → Option String
  | .error e => some e
  | .ok _ => none

/-- WheelOfFortune.pick is random.choices(items, weights, k=count).
Modelled from the spec for the stdlib part: random.choices validates that
the weight count matches the population, indexes the cumulative weights
(an empty population raises IndexError), and raises ValueError unless the
total weight is positive; the proportional draws themselves come from the
injected choice stream, one position per draw, reduced into the
population. -/
def WheelOfFortune.pick (w : WheelOfFortune) (count : ℕ) (r : RandState) :
    Except String (List Gene × RandState) :=
  if w.weights.length ≠ w.items.length then
    .error "The number of weights does not match the population"
  else if w.items.isEmpty then .error "list index out of range"
  else if w.weights.sum ≤ 0 then
    .error "Total of weights must be greater than zero"
  else
    .ok ((List.range count).map
          (fun k => w.items.getD (r.choices (r.cpos + k) % w.items.length) default),
        { r with cpos := r.cpos + count })

/-- GeneticSolver._make_wheel: normalizes each fitness by the total
fitness of the generation, substituting a denominator of 1 when the total
is 0.0 (so that the division cannot fail); summing a fitness of None would
raise a TypeError in Python, modelled as an error. -/
def make_wheel (genes : List Gene) : Except String WheelOfFortune := do
  let fits ← genes.mapM fun g =>
    match g.fitness with
    | some f => Except.ok f
    | none => Except.error "unsupported operand type for sum: NoneType"
  let sum_fitness := fits.sum
  let sum_fitness := if sum_fitness = 0 then 1 else sum_fitness
  .ok { items := genes, weights := fits.map fun f => f / sum_fitness }

/-- GeneticSolver state. -/
structure GeneticSolver where
  max_fitness : ℚ
  max_runs : ℕ
  packer : Packer
  required_gene_length : ℕ
  genes : List Gene
  crossover_rate : ℚ
  mutation_rate : ℚ
  best_fitness : ℚ
  best_gene : Gene
  best_packer : Packer
  run : ℕ
deriving DecidableEq, Repr

namespace GeneticSolver

/-- GeneticSolver.__init__ with its eager validation. -/
def init (packer : Packer) (max_runs : ℤ) (max_fitness : ℚ)
    (crossover_rate mutation_rate : ℚ) : Except String GeneticSolver :=
  if max_fitness > 1 ∨ max_fitness < 0 then
    .error "max_fitness not in range [0, 1]"
  else if max_runs < 1 then .error "max_runs < 1"
  else if packer.is_packed then .error "packer is already packed"
  else
    .ok { max_fitness := max_fitness, max_runs := max_runs.toNat,
          packer := packer, required_gene_length := packer.items.length,
          genes := [], crossover_rate := crossover_rate,
          mutation_rate := mutation_rate, best_fitness := 0,
          best_gene := ⟨0, [], none⟩, best_packer := packer, run := 0 }

/-- GeneticSolver.is_executed: bool(self.run). -/
def is_executed (s : GeneticSolver) : Bool := s.run ≠ 0

/-- GeneticSolver.add_gene. -/
def add_gene (s : GeneticSolver) (gene : Gene) : Except String GeneticSolver :=
  if s.is_executed = false then
    if gene.data.length ≠ s.required_gene_length then
      .error "invalid gene length"
    else .ok { s with genes := s.genes ++ [gene] }
  else .error "already executed"

/-- The body of GeneticSolver._measure_fitness, folding over the genes:
genes with a cached fitness are skipped; otherwise the base packer is
copied, schematic-packed with the gene as item schema, and the fill ratio
recorded, updating the best triple on a strict improvement. -/
def measure_fold (base : Packer) :
    List Gene → ℚ × Gene × Packer →
    Except String (List Gene × ℚ × Gene × Packer)
  | [], acc => .ok ([], acc)
  | g :: rest, acc =>
    match g.fitness with
    | some _ => do
      let s ← measure_fold base rest acc
      .ok (g :: s.1, s.2)
    | none => do
      let p0 ← base.copy
      let p1 ← schematic_pack p0 g.data none
      let fr := p1.get_fill_ratio
      let g1 : Gene := { g with fitness := some fr }
      let acc1 := if fr > acc.1 then (fr, g1, p1) else acc
      let s ← measure_fold base rest acc1
      .ok (g1 :: s.1, s.2)

/-- GeneticSolver._measure_fitness. -/
def measure_fitness (s : GeneticSolver) : Except String GeneticSolver := do
  let r ← measure_fold s.packer s.genes (s.best_fitness, s.best_gene, s.best_packer)
  .ok { s with genes := r.1, best_fitness := r.2.1, best_gene := r.2.2.1,
               best_packer := r.2.2.2 }

/-- The while loop of GeneticSolver._selection: pick two parents, copy
them, cross them over with probability crossover_rate at a random split,
mutate both, and append both to the next generation until it has at least
the previous population size. The fuel bound count + 1 dominates the
ceil(count / 2) iterations the loop performs, so the fuel never runs out. -/
def selection_loop (wheel : WheelOfFortune) (cr mr : ℚ) (count : ℕ) :
    ℕ → List Gene → RandState → Except String (List Gene × RandState)
  | 0, acc, r => .ok (acc, r)
  | fuel + 1, acc, r =>
    if count ≤ acc.length then .ok (acc, r)
    else do
      let pk ← wheel.pick 2 r
      let gene1 := (pk.1.getD 0 default).copy
      let gene2 := (pk.1.getD 1 default).copy
      let roll := nextFloat pk.2
      if roll.1 < cr then do
        let loc ← nextRange gene1.data.length roll.2
        let rec2 ← recombine_genes gene1 gene2 loc.1
        let m1 := rec2.1.mutate mr loc.2
        let m2 := rec2.2.mutate mr m1.2
        selection_loop wheel cr mr count fuel (acc ++ [m1.1, m2.1]) m2.2
      else do
        let m1 := gene1.mutate mr roll.2
        let m2 := gene2.mutate mr m1.2
        selection_loop wheel cr mr count fuel (acc ++ [m1.1, m2.1]) m2.2

/-- GeneticSolver._selection. -/
def selection (s : GeneticSolver) (r : RandState) :
    Except String (List Gene × RandState) := do
  let wheel ← make_wheel s.genes
  selection_loop wheel s.crossover_rate s.mutation_rate s.genes.length
    (s.genes.length + 1) [] r

/-- The time-budget termination test of GeneticSolver.execute, exactly as
written in the source: start_time - t1 > max_time. -/
def time_budget_exceeded (start_time t1 max_time : ℚ) : Bool :=
  start_time - t1 > max_time

/-- The generation loop of GeneticSolver.execute. The clock stream holds
the successive time.perf_counter() readings: clock 0 is taken before the
loop, clock (i + 1) inside generation i. The default feedback of None
makes the feedback branch dead, so it is omitted. -/
def execute_loop (clock : ℕ → ℚ) (max_time start_time : ℚ) :
    GeneticSolver → RandState → ℕ → ℕ → Except String GeneticSolver
  | s, _, _, 0 => .ok s
  | s, r, i, fuel + 1 => do
    let s := { s with run := i }
    let s ← s.measure_fitness
    if s.best_fitness ≥ s.max_fitness then .ok s
    else
      let t1 := clock (i + 1)
      if time_budget_exceeded start_time t1 max_time then .ok s
      else do
        let sel ← s.selection r
        execute_loop clock max_time start_time
          { s with genes := sel.1 } sel.2 (i + 1) fuel

/-- GeneticSolver.execute (with feedback=None). -/
def execute (s : GeneticSolver) (clock : ℕ → ℚ) (r : RandState)
    (max_time : ℚ) : Except String GeneticSolver :=
  if s.is_executed then .error "can only run once"
  else execute_loop clock max_time (clock 0) s r 0 s.max_runs

end GeneticSolver

/-- The inner item loop of AbstractPacker._pack when called from pack()
with list arguments: the loop iterates the full item snapshot for every
bin, so an item that was already placed in an earlier bin is tried again;
if it is seated once more, packer.items.remove raises ValueError because
the item is no longer there. The second component threads packer.items. -/
def pack_items_list (box : Bin) :
    List Item → List Item → Except String (Bin × List Item)
  | [], selfItems => .ok (box, selfItems)
  | it :: rest, selfItems =>
    let r := pack_to_bin box it
    if r.1 then
      if it ∈ selfItems then pack_items_list r.2.1 rest (selfItems.erase it)
      else .error "list.remove(x): x not in list"
    else pack_items_list box rest selfItems

/-- The outer bin loop of AbstractPacker._pack over list arguments. -/
def pack_bins_list :
    List Bin → List Item → List Item → Except String (List Bin × List Item)
  | [], _, selfItems => .ok ([], selfItems)
  | b :: bs, snapshot, selfItems => do
    let r ← pack_items_list b snapshot selfItems
    let s ← pack_bins_list bs snapshot r.2
    .ok (r.1 :: s.1, s.2)

/-- shuffle_pack attempt: copy the packer and pack the copy with the
SHUFFLE strategy. random.shuffle is injected as the pair of reorderings
the attempt applies to the bin and item lists (spec design notes:
randomness must be injectable). _pack receives the shuffled bin list and
a snapshot copy of the shuffled item list, and clears _init_state. -/
def shuffle_attempt (p : Packer)
    (shuffle : (List Bin → List Bin) × (List Item → List Item)) :
    Except String Packer := do
  let q ← p.copy
  let bins := shuffle.1 q.bins
  let items := shuffle.2 q.items
  let r ← pack_bins_list bins items items
  .ok { bins := r.1, items := r.2, init_state := false }

/-- The attempt loop of shuffle_pack: the best packer starts as the input
packer itself with a best ratio of 0.0 and is replaced only by an attempt
whose fill ratio is strictly greater than the best so far. -/
def shuffle_pack_loop (p : Packer)
    (shuffles : ℕ → (List Bin → List Bin) × (List Item → List Item)) :
    ℕ → ℕ → ℚ → Packer → Except String Packer
  | _, 0, _, best_packer => .ok best_packer
  | k, fuel + 1, best_ratio, best_packer => do
    let np ← shuffle_attempt p (shuffles k)
    let new_ratio := np.get_fill_ratio
    if new_ratio > best_ratio then
      shuffle_pack_loop p shuffles (k + 1) fuel new_ratio np
    else
      shuffle_pack_loop p shuffles (k + 1) fuel best_ratio best_packer

/-- shuffle_pack: requires at least one attempt and returns the attempt
with the best fill ratio, or the input packer itself when no attempt beat
the initial best ratio of 0.0. -/
def shuffle_pack (p : Packer) (attempts : ℕ)
    (shuffles : ℕ → (List Bin → List Bin) × (List Item → List Item)) :
    Except String Packer :=
  if attempts < 1 then .error "expected attempts >= 1"
  else shuffle_pack_loop p shuffles 0 attempts 0 p

/-- An item has non-negative dimensions. -/
def nonnegDims (i : Item) : Prop := 0 ≤ i.width ∧ 0 ≤ i.height ∧ 0 ≤ i.depth

instance (i : Item) : Decidable (nonnegDims i) := by unfold nonnegDims; infer_instance

/-- The bounding box of a placed item lies inside
[0, width] x [0, height] x [0, depth] of the bin. -/
def inBounds (b : Bin) (i : Item) : Prop :=
  0 ≤ i.bbox.extmin.1 ∧ 0 ≤ i.bbox.extmin.2.1 ∧ 0 ≤ i.bbox.extmin.2.2 ∧
  i.bbox.extmax.1 ≤ b.width ∧ i.bbox.extmax.2.1 ≤ b.height ∧
  i.bbox.extmax.2.2 ≤ b.depth

instance (b : Bin) (i : Item) : Decidable (inBounds b i) := by
  unfold inBounds; infer_instance

/-- The three bin invariants stated by the spec: pairwise non-intersecting
bounding boxes, total weight within the limit, and containment. -/
def BinInvariant (b : Bin) : Prop :=
  b.items.Pairwise (fun i j => i.bbox.intersect j.bbox = false) ∧
  b.get_total_weight ≤ b.max_weight ∧
  ∀ i ∈ b.items, inBounds b i

/-- Bin states reachable by sequences of successful placements as driven
by Packer.pack_to_bin: start from an item-free bin with a non-negative
weight limit and repeatedly place items with non-negative dimensions. -/
inductive ReachableBin : Bin → Prop where
  | init (b : Bin) (hempty : b.items = []) (hw : 0 ≤ b.max_weight) :
      ReachableBin b
  | step (b : Bin) (item : Item) (b2 : Bin) (it2 : Item)
      (hr : ReachableBin b) (hd : nonnegDims item)
      (hp : pack_to_bin b item = (true, b2, it2)) : ReachableBin b2

section Fixtures

/-- A 10 x 10 x 10 bin with no items. -/
def bin10 : Bin := ⟨"b", 10, 10, 10, 1000, []⟩

/-- A 5 x 5 x 5 cube of weight 1. -/
def cubeItem : Item := ⟨0, 5, 5, 5, 1, .WHD, (0, 0, 0)⟩

/-- bin10 after cubeItem has been packed into it at the origin. -/
def bin10After : Bin := ⟨"b", 10, 10, 10, 1000, [cubeItem]⟩

/-- A 1 x 1 x 1 bin with no items. -/
def unitBin : Bin := ⟨"unit", 1, 1, 1, 1000, []⟩

/-- A 2 x 2 x 2 item, too large for unitBin in every rotation. -/
def bigItem : Item := ⟨0, 2, 2, 2, 1, .WHD, (0, 0, 0)⟩

/-- The state of bigItem after a failed put_item call on unitBin: the
position is restored but the rotation stays at the last attempted one. -/
def bigItemAfter : Item := ⟨0, 2, 2, 2, 1, .WDH, (0, 0, 0)⟩

/-- A bin whose capacity is zero. -/
def zeroBin : Bin := ⟨"z", 0, 1, 1, 1000, []⟩

/-- A packer with a single zero-capacity bin. -/
def zeroPacker : Packer := ⟨[zeroBin], [], true⟩

/-- A 2 x 1 x 1 bin (capacity 2). -/
def binA : Bin := ⟨"A", 2, 1, 1, 1000, []⟩

/-- A 1 x 1 x 1 bin (capacity 1). -/
def binB : Bin := ⟨"B", 1, 1, 1, 1000, []⟩

/-- A packer holding binA and binB and no items. -/
def packerAB : Packer := ⟨[binA, binB], [], true⟩

/-- A one-value gene holding 0. -/
def g01 : Gene := ⟨1, [0], none⟩

/-- A one-value gene holding 1. -/
def g11 : Gene := ⟨1, [1], none⟩

/-- A two-value gene. -/
def gA2 : Gene := ⟨2, [0, 1], none⟩

/-- Another two-value gene. -/
def gB2 : Gene := ⟨2, [1, 1/2], none⟩

/-- A gene with measured fitness 0. -/
def gz1 : Gene := ⟨1, [0], some 0⟩

/-- Another gene with measured fitness 0. -/
def gz2 : Gene := ⟨1, [1], some 0⟩

/-- An injected random source whose streams are constantly 0. -/
def rand0 : RandState := ⟨fun _ => 0, 0, fun _ => 0, 0, fun _ => 0, 0⟩

/-- An injected clock whose readings are all 0. -/
def clock0 : ℕ → ℚ := fun _ => 0

/-- A packer with no bins and no items. -/
def emptyPacker : Packer := ⟨[], [], true⟩

/-- The zero-length gene. -/
def zeroGene : Gene := ⟨0, [], none⟩

/-- A genetic solver over the empty packer with max_runs = 1 and
max_fitness = 0, holding one zero-length gene, after one full execute
call: the first generation measures fitness 0 which meets the target, so
the loop breaks in its first iteration with self.run = 0. -/
def c7run : Except String GeneticSolver :=
  (GeneticSolver.init emptyPacker 1 0 (7/10) (1/1000)).bind fun s =>
    (GeneticSolver.add_gene s zeroGene).bind fun s2 =>
      GeneticSolver.execute s2 clock0 rand0 1000000

/-- A packer with one unit bin and no items. -/
def pOne : Packer := ⟨[⟨"b", 1, 1, 1, 1000, []⟩], [], true⟩

/-- The result of one shuffle attempt on pOne: packed, still empty. -/
def pOnePacked : Packer := ⟨[⟨"b", 1, 1, 1, 1000, []⟩], [], false⟩

end Fixtures

/-! ## Helper lemmas -/

theorem rat_floor_eq (q : ℚ) : q.floor = ⌊q⌋ := by
  rw [Rat.floor_def', Rat.floor_def]

theorem except_bind_ok {ε α β : Type} (x : α) (f : α → Except ε β) :
    ((Except.ok x : Except ε α) >>= f) = f x := rfl

theorem pyRound_ge_floor (q : ℚ) : ⌊q⌋ ≤ pyRound q := by
  unfold pyRound
  rw [rat_floor_eq]
  split_ifs <;> omega

theorem pyRound_le_floor_add_one (q : ℚ) : pyRound q ≤ ⌊q⌋ + 1 := by
  unfold pyRound
  rw [rat_floor_eq]
  split_ifs <;> omega

theorem pyRound_intCast (n : ℤ) : pyRound (n : ℚ) = n := by
  unfold pyRound
  rw [rat_floor_eq]
  norm_num

theorem pyRound_natCast (n : ℕ) : pyRound (n : ℚ) = n := by
  have := pyRound_intCast (n : ℤ)
  rwa [Int.cast_natCast] at this

theorem pyRound_nonneg {q : ℚ} (h : 0 ≤ q) : 0 ≤ pyRound q :=
  le_trans (Int.le_floor.mpr (by exact_mod_cast h)) (pyRound_ge_floor q)

theorem pyRound_zero : pyRound 0 = 0 := by
  have := pyRound_intCast 0
  simpa using this

theorem pyRound_le_int {q : ℚ} {m : ℤ} (h : q ≤ (m : ℚ)) : pyRound q ≤ m := by
  have hf : ⌊q⌋ ≤ m := by
    have := Int.floor_le_floor h
    simpa using this
  rcases lt_or_eq_of_le hf with hlt | heq
  · exact le_trans (pyRound_le_floor_add_one q) (by omega)
  · have hq : (m : ℚ) ≤ q := by
      have := Int.floor_le q
      rw [heq] at this
      simpa using this
    have hqm : q = (m : ℚ) := le_antisymm h hq
    rw [hqm, pyRound_intCast]

theorem schematic_picker_step_err {α : Type} (x : α) (xs : List α)
    (value : ℚ) (schema : List ℚ)
    (h : (x :: xs).length ≤
      (pyRound (|value| * (((x :: xs).length - 1 : ℕ) : ℚ))).toNat) :
    schematic_picker (x :: xs) (value :: schema) =
      .error "pick values have to be in range [0, 1]" := by
  simp only [schematic_picker]
  rw [if_neg (by omega)]

/-- The picker equation for a non-empty list with the computed index
abstracted: states the successful-pop branch. -/
theorem schematic_picker_step_ok {α : Type} (x : α) (xs : List α)
    (value : ℚ) (schema : List ℚ) (idx : ℕ)
    (hidx : (pyRound (|value| * (((x :: xs).length - 1 : ℕ) : ℚ))).toNat = idx)
    (h : idx < (x :: xs).length) :
    schematic_picker (x :: xs) (value :: schema) =
      match schematic_picker ((x :: xs).eraseIdx idx) schema with
      | .ok rest => .ok ((x :: xs).getD idx x :: rest)
      | .error e => .error e := by
  simp only [schematic_picker]
  rw [hidx, if_pos h]

theorem eraseIdx_concat {α : Type} (ys : List α) (y : α) :
    (ys ++ [y]).eraseIdx ys.length = ys := by
  induction ys with
  | nil => rfl
  | cons a t ih => simp [ih]

theorem getD_concat {α : Type} (ys : List α) (y d : α) :
    (ys ++ [y]).getD ys.length d = y := by
  induction ys with
  | nil => rfl
  | cons a t ih => simp [ih]

/-- One step of the picker with pick value 1 over a non-empty list pops
the last element. -/
theorem picker_concat_one {α : Type} (ys : List α) (y : α) (schema : List ℚ) :
    schematic_picker (ys ++ [y]) (1 :: schema) =
      match schematic_picker ys schema with
      | .ok rest => .ok (y :: rest)
      | .error e => .error e := by
  cases ys with
  | nil =>
    rw [List.nil_append,
      schematic_picker_step_ok y [] 1 schema 0
        (by
          have hl : ([y].length - 1 : ℕ) = 0 := rfl
          rw [hl, abs_one, one_mul, Nat.cast_zero, pyRound_zero]
          rfl)
        (by simp)]
    rfl
  | cons a t =>
    rw [List.cons_append,
      schematic_picker_step_ok a (t ++ [y]) 1 schema (t.length + 1)
        (by
          have hl : ((a :: (t ++ [y])).length - 1 : ℕ) = t.length + 1 := by simp
          rw [hl, abs_one, one_mul, pyRound_natCast]
          simp)
        (by simp)]
    have herase : (a :: (t ++ [y])).eraseIdx (t.length + 1) = a :: t := by
      rw [List.eraseIdx_cons_succ, eraseIdx_concat]
    have hget : (a :: (t ++ [y])).getD (t.length + 1) a = y := by
      rw [List.getD_cons_succ, getD_concat]
    rw [herase, hget]

/-- Picking with an all-ones schema yields the list reversed: every step
pops the last remaining element. -/
theorem pick_all_ones {α : Type} (xs : List α) :
    schematic_picker xs (List.replicate xs.length 1) = .ok xs.reverse := by
  induction xs using List.reverseRecOn with
  | nil => rfl
  | append_singleton ys y ih =>
    rw [show (ys ++ [y]).length = ys.length + 1 by simp, List.replicate_succ,
      picker_concat_one, ih]
    simp

/-- A pick value in [0, 1] always produces an in-range index, so the only
error a picker run over such a schema can raise is value exhaustion. -/
theorem picker_index_lt {α : Type} (x : α) (xs : List α) {v : ℚ}
    (h0 : 0 ≤ v) (h1 : v ≤ 1) :
    (pyRound (|v| * (((x :: xs).length - 1 : ℕ) : ℚ))).toNat < (x :: xs).length := by
  have hc : (0 : ℚ) ≤ (((x :: xs).length - 1 : ℕ) : ℚ) := by positivity
  have hmul : |v| * (((x :: xs).length - 1 : ℕ) : ℚ) ≤
      (((x :: xs).length - 1 : ℕ) : ℚ) := by
    rw [abs_of_nonneg h0]
    exact mul_le_of_le_one_left hc h1
  have hcast : (((x :: xs).length - 1 : ℕ) : ℚ) =
      ((((x :: xs).length - 1 : ℕ) : ℤ) : ℚ) := by push_cast; ring
  have hle : pyRound (|v| * (((x :: xs).length - 1 : ℕ) : ℚ)) ≤
      (((x :: xs).length - 1 : ℕ) : ℤ) := by
    apply pyRound_le_int
    rw [← hcast]
    exact hmul
  have := Int.toNat_le_toNat hle
  simp only [Int.toNat_natCast] at this
  simp only [List.length_cons] at this ⊢
  omega

theorem picker_insufficient {α : Type} :
    ∀ (schema : List ℚ) (items : List α),
      (∀ v ∈ schema, 0 ≤ v ∧ v ≤ 1) → schema.length < items.length →
      schematic_picker items schema = .error "not enough pick values" := by
  intro schema
  induction schema with
  | nil =>
    intro items _ hlen
    cases items with
    | nil => simp at hlen
    | cons x xs => rfl
  | cons v rest ih =>
    intro items hv hlen
    cases items with
    | nil => simp at hlen
    | cons x xs =>
      obtain ⟨hv0, hv1⟩ := hv v (by simp)
      have hlt := picker_index_lt x xs hv0 hv1
      rw [schematic_picker_step_ok x xs v rest _ rfl hlt]
      have hrec := ih ((x :: xs).eraseIdx
          ((pyRound (|v| * (((x :: xs).length - 1 : ℕ) : ℚ))).toNat))
        (fun u hu => hv u (by simp [hu]))
        (by
          rw [List.length_eraseIdx_of_lt hlt]
          simp only [List.length_cons] at hlen ⊢
          omega)
      rw [hrec]

/-- On the failure path, put_item_loop leaves the bin alone, restores the
item position, preserves the immutable item fields, and leaves the
rotation at the last rotation tried (or untouched when no rotation was
tried). -/
theorem put_item_loop_failure {b : Bin} {pivot orig : ℚ × ℚ × ℚ} :
    ∀ (rts : List RotationType) (item : Item) {b2 : Bin} {it2 : Item},
      Bin.put_item_loop b pivot orig item rts = (false, b2, it2) →
      b2 = b ∧ it2.position = orig ∧
      it2.width = item.width ∧ it2.height = item.height ∧
      it2.depth = item.depth ∧ it2.weight = item.weight ∧
      it2.payload = item.payload ∧
      it2.rotation_type = rts.getLastD item.rotation_type := by
  intro rts
  induction rts with
  | nil =>
    intro item b2 it2 h
    simp only [Bin.put_item_loop, Prod.mk.injEq] at h
    obtain ⟨-, hb, hit⟩ := h
    subst hb
    subst hit
    simp
  | cons rt rest ih =>
    intro item b2 it2 h
    simp only [Bin.put_item_loop] at h
    rw [List.getLastD_cons]
    split at h
    · exact ih _ h
    · split at h
      · simp only [Prod.mk.injEq] at h
        exact absurd h.1 (by simp)
      · exact ih _ h

theorem intersect_comm (a b : BBox) : a.intersect b = b.intersect a := by
  unfold BBox.intersect
  rw [decide_eq_decide]
  constructor <;> intro h <;> tauto

theorem get_dimension_nonneg {i : Item} (h : nonnegDims i) :
    0 ≤ i.get_dimension.1 ∧ 0 ≤ i.get_dimension.2.1 ∧
    0 ≤ i.get_dimension.2.2 := by
  obtain ⟨h1, h2, h3⟩ := h
  cases hrt : i.rotation_type <;>
    simp [Item.get_dimension, hrt] <;>
    refine ⟨by assumption, by assumption, by assumption⟩

/-- For an item with non-negative dimensions, the bounding box runs from
the position to the position plus the oriented dimensions. -/
theorem bbox_of_nonneg {i : Item} (h : nonnegDims i) :
    i.bbox.extmin = i.position ∧
    i.bbox.extmax = (i.position.1 + i.get_dimension.1,
                     i.position.2.1 + i.get_dimension.2.1,
                     i.position.2.2 + i.get_dimension.2.2) := by
  obtain ⟨hd1, hd2, hd3⟩ := get_dimension_nonneg h
  unfold Item.bbox
  constructor
  · simp only [Prod.ext_iff]
    exact ⟨min_eq_left (le_add_of_nonneg_right hd1),
      min_eq_left (le_add_of_nonneg_right hd2),
      min_eq_left (le_add_of_nonneg_right hd3)⟩
  · simp only [Prod.ext_iff]
    exact ⟨max_eq_right (le_add_of_nonneg_right hd1),
      max_eq_right (le_add_of_nonneg_right hd2),
      max_eq_right (le_add_of_nonneg_right hd3)⟩

/-- On the success path, put_item_loop appends the committed item, whose
position is the pivot, whose immutable fields are the input item fields,
and which passed the containment, intersection and weight checks. -/
theorem put_item_loop_success {b : Bin} {pivot orig : ℚ × ℚ × ℚ} :
    ∀ (rts : List RotationType) (item : Item) {b2 : Bin} {it2 : Item},
      Bin.put_item_loop b pivot orig item rts = (true, b2, it2) →
      b2 = { b with items := b.items ++ [it2] } ∧
      it2.position = pivot ∧
      it2.width = item.width ∧ it2.height = item.height ∧
      it2.depth = item.depth ∧ it2.weight = item.weight ∧
      pivot.1 + it2.get_dimension.1 ≤ b.width ∧
      pivot.2.1 + it2.get_dimension.2.1 ≤ b.height ∧
      pivot.2.2 + it2.get_dimension.2.2 ≤ b.depth ∧
      (∀ j ∈ b.items, it2.bbox.intersect j.bbox = false) ∧
      b.get_total_weight + it2.weight ≤ b.max_weight := by
  intro rts
  induction rts with
  | nil =>
    intro item b2 it2 h
    simp only [Bin.put_item_loop, Prod.mk.injEq] at h
    exact absurd h.1 (by simp)
  | cons rt rest ih =>
    intro item b2 it2 h
    simp only [Bin.put_item_loop] at h
    split at h
    · have hres := ih _ h
      exact hres
    · rename_i hfit
      split at h
      · rename_i hcheck
        simp only [Prod.mk.injEq] at h
        obtain ⟨-, hb, hit⟩ := h
        subst hb
        subst hit
        push_neg at hfit
        obtain ⟨hf1, hf2, hf3⟩ := hfit
        obtain ⟨hint, hwt⟩ := hcheck
        refine ⟨rfl, rfl, rfl, rfl, rfl, rfl, hf1, hf2, hf3, ?_, hwt⟩
        intro j hj
        have hj2 := List.any_eq_false.mp hint j hj
        simpa using hj2
      · have hres := ih _ h
        exact hres

/-- A failed put_item call keeps the bin and the immutable item fields. -/
theorem put_item_failure_fields {b : Bin} {item : Item}
    {pivot : ℚ × ℚ × ℚ} {b2 : Bin} {it2 : Item}
    (h : b.put_item item pivot = (false, b2, it2)) :
    b2 = b ∧ it2.position = item.position ∧
    it2.width = item.width ∧ it2.height = item.height ∧
    it2.depth = item.depth ∧ it2.weight = item.weight := by
  unfold Bin.put_item at h
  obtain ⟨hb, hpos, hw, hh, hd, hwt, -, -⟩ :=
    put_item_loop_failure rotationsList _ h
  exact ⟨hb, hpos, hw, hh, hd, hwt⟩

/-- Invariant preservation by one successful put_item at a non-negative
pivot. -/
theorem put_item_preserves_invariant {b : Bin} {item : Item}
    {pivot : ℚ × ℚ × ℚ} {b2 : Bin} {it2 : Item}
    (hinv : BinInvariant b) (hall : ∀ i ∈ b.items, nonnegDims i)
    (hd : nonnegDims item)
    (hpv : 0 ≤ pivot.1 ∧ 0 ≤ pivot.2.1 ∧ 0 ≤ pivot.2.2)
    (h : b.put_item item pivot = (true, b2, it2)) :
    BinInvariant b2 ∧ ∀ i ∈ b2.items, nonnegDims i := by
  unfold Bin.put_item at h
  obtain ⟨hb2, hpos, hw, hh, hdp, hwt, hfit1, hfit2, hfit3, hint, hweight⟩ :=
    put_item_loop_success rotationsList _ h
  have hd2 : nonnegDims it2 := by
    unfold nonnegDims at hd ⊢
    rw [hw, hh, hdp]
    exact hd
  subst hb2
  refine ⟨⟨?_, ?_, ?_⟩, ?_⟩
  · refine List.pairwise_append.mpr ⟨hinv.1, by simp, ?_⟩
    intro a ha c hc
    simp only [List.mem_singleton] at hc
    subst hc
    rw [intersect_comm]
    exact hint a ha
  · unfold Bin.get_total_weight at hweight ⊢
    simp only [List.map_append, List.sum_append, List.map_cons,
      List.map_nil, List.sum_cons, List.sum_nil]
    linarith
  · intro i hi
    rcases List.mem_append.mp hi with hiold | hinew
    · exact hinv.2.2 i hiold
    · simp only [List.mem_singleton] at hinew
      subst hinew
      obtain ⟨hmin, hmax⟩ := bbox_of_nonneg hd2
      unfold inBounds
      rw [hmin, hmax, hpos]
      exact ⟨hpv.1, hpv.2.1, hpv.2.2, hfit1, hfit2, hfit3⟩
  · intro i hi
    rcases List.mem_append.mp hi with h1 | h2
    · exact hall i h1
    · simp only [List.mem_singleton] at h2
      subst h2
      exact hd2

/-- A successful pack_to_bin_loop run is a successful put_item call at one
of the candidate pivots, on an item whose immutable fields are those of
the input item. -/
theorem pack_to_bin_loop_success {box : Bin} :
    ∀ (pvs : List (ℚ × ℚ × ℚ)) (item : Item) {b2 : Bin} {it2 : Item},
      pack_to_bin_loop box item pvs = (true, b2, it2) →
      ∃ pv ∈ pvs, ∃ itm : Item,
        itm.width = item.width ∧ itm.height = item.height ∧
        itm.depth = item.depth ∧ itm.weight = item.weight ∧
        box.put_item itm pv = (true, b2, it2) := by
  intro pvs
  induction pvs with
  | nil =>
    intro item b2 it2 h
    simp only [pack_to_bin_loop, Prod.mk.injEq] at h
    exact absurd h.1 (by simp)
  | cons pv rest ih =>
    intro item b2 it2 h
    simp only [pack_to_bin_loop] at h
    by_cases hc : (box.put_item item pv).1 = true
    · rw [if_pos hc] at h
      exact ⟨pv, by simp, item, rfl, rfl, rfl, rfl, h⟩
    · rw [if_neg hc] at h
      have hcf : (box.put_item item pv).1 = false := by
        cases hval : (box.put_item item pv).1
        · rfl
        · exact absurd hval hc
      have hr : box.put_item item pv =
          (false, (box.put_item item pv).2.1, (box.put_item item pv).2.2) := by
        rw [← hcf]
      obtain ⟨-, -, hfw, hfh, hfd, hfwt⟩ := put_item_failure_fields hr
      obtain ⟨pv2, hpv2, itm, hw2, hh2, hd2, hwt2, hsucc⟩ := ih _ h
      refine ⟨pv2, by simp [hpv2], itm, ?_, ?_, ?_, ?_, hsucc⟩
      · rw [hw2, hfw]
      · rw [hh2, hfh]
      · rw [hd2, hfd]
      · rw [hwt2, hfwt]

/-- Every candidate pivot generated by pack_to_bin over a bin satisfying
the invariants is componentwise non-negative. -/
theorem pack_pivots_nonneg {box : Bin} (hinv : BinInvariant box)
    (hall : ∀ i ∈ box.items, nonnegDims i) :
    ∀ pv ∈ pack_pivots box, 0 ≤ pv.1 ∧ 0 ≤ pv.2.1 ∧ 0 ≤ pv.2.2 := by
  have key : ∀ pi ∈ box.items,
      (0 ≤ pi.position.1 ∧ 0 ≤ pi.position.2.1 ∧ 0 ≤ pi.position.2.2) ∧
      (0 ≤ pi.get_dimension.1 ∧ 0 ≤ pi.get_dimension.2.1 ∧
        0 ≤ pi.get_dimension.2.2) := by
    intro pi hpi
    have hb := hinv.2.2 pi hpi
    have hnn := hall pi hpi
    obtain ⟨hmin, -⟩ := bbox_of_nonneg hnn
    unfold inBounds at hb
    rw [hmin] at hb
    exact ⟨⟨hb.1, hb.2.1, hb.2.2.1⟩, get_dimension_nonneg hnn⟩
  intro pv hpv
  unfold pack_pivots at hpv
  rcases List.mem_append.mp hpv with h12 | h3
  · rcases List.mem_append.mp h12 with h1 | h2
    · obtain ⟨pi, hpi, rfl⟩ := List.mem_map.mp h1
      obtain ⟨⟨hp1, hp2, hp3⟩, ⟨hg1, -, -⟩⟩ := key pi hpi
      exact ⟨by unfold pivot_width; positivity, hp2, hp3⟩
    · obtain ⟨pi, hpi, rfl⟩ := List.mem_map.mp h2
      obtain ⟨⟨hp1, hp2, hp3⟩, ⟨-, hg2, -⟩⟩ := key pi hpi
      exact ⟨hp1, by unfold pivot_height; positivity, hp3⟩
  · obtain ⟨pi, hpi, rfl⟩ := List.mem_map.mp h3
    obtain ⟨⟨hp1, hp2, hp3⟩, ⟨-, -, hg3⟩⟩ := key pi hpi
    exact ⟨hp1, hp2, by unfold pivot_depth; positivity⟩

/-- The strengthened induction: every reachable bin satisfies the three
invariants and all its placed items have non-negative dimensions. -/
theorem reachable_bin_strong {b : Bin} (h : ReachableBin b) :
    BinInvariant b ∧ ∀ i ∈ b.items, nonnegDims i := by
  induction h with
  | init b hempty hw =>
    refine ⟨⟨?_, ?_, ?_⟩, ?_⟩ <;>
      simp [hempty, Bin.get_total_weight, hw]
  | step b item b2 it2 hr hd hp ih =>
    obtain ⟨hinv, hall⟩ := ih
    unfold pack_to_bin at hp
    by_cases hempty : b.items.isEmpty = true
    · rw [if_pos hempty] at hp
      exact put_item_preserves_invariant hinv hall hd
        ⟨le_refl 0, le_refl 0, le_refl 0⟩ hp
    · rw [if_neg hempty] at hp
      obtain ⟨pv, hpv, itm, hw2, hh2, hd2, hwt2, hsucc⟩ :=
        pack_to_bin_loop_success _ _ hp
      have hpvn := pack_pivots_nonneg hinv hall pv hpv
      have hdm : nonnegDims itm := by
        unfold nonnegDims at hd ⊢
        rw [hw2, hh2, hd2]
        exact hd
      exact put_item_preserves_invariant hinv hall hdm hpvn hsucc

/-! ## Claim theorems -/

/-- C1: every bin reachable by a sequence of successful placements driven
by Packer.pack_to_bin with non-negative item dimensions satisfies the
three invariants: pairwise non-intersecting bounding boxes, total weight
within the limit, and containment of every placed item in
[0, width] x [0, height] x [0, depth]. -/
theorem c1_bin_invariants (b : Bin) (h : ReachableBin b) : BinInvariant b :=
  (reachable_bin_strong h).1

/-- Witness for C1: the invariants of the bin obtained by packing the
5-cube into the empty 10-bin. -/
theorem c1_witness : BinInvariant bin10After :=
  c1_bin_invariants bin10After
    (ReachableBin.step bin10 cubeItem bin10After cubeItem
      (ReachableBin.init bin10 rfl (by decide))
      (by decide)
      (by decide))

/-- C2: the claim states that a failed put_item call restores both the
orientation and the position of the item. On a 1-cube bin and a 2-cube
item every rotation is refused; the position is restored but the rotation
after the call differs from the rotation before it. -/
theorem c2_counterexample :
    (unitBin.put_item bigItem (0, 0, 0)).1 = false ∧
    (unitBin.put_item bigItem (0, 0, 0)).2.2.position = bigItem.position ∧
    (unitBin.put_item bigItem (0, 0, 0)).2.2.rotation_type ≠
      bigItem.rotation_type := by
  refine ⟨by decide, by decide, by decide⟩

/-- C2 (amended): on failure the bin is unchanged and the item position is
restored to its pre-call value, but the rotation is left at the last
attempted rotation, WDH, instead of being restored. -/
theorem c2_put_item_failure_state (b : Bin) (item : Item)
    (pivot : ℚ × ℚ × ℚ) (b2 : Bin) (it2 : Item)
    (h : b.put_item item pivot = (false, b2, it2)) :
    b2 = b ∧ it2.position = item.position ∧
    it2.rotation_type = RotationType.WDH ∧
    it2.width = item.width ∧ it2.height = item.height ∧
    it2.depth = item.depth ∧ it2.weight = item.weight := by
  unfold Bin.put_item at h
  obtain ⟨hb, hpos, hw, hh, hd, hwt, -, hrot⟩ :=
    put_item_loop_failure rotationsList _ h
  exact ⟨hb, hpos, hrot, hw, hh, hd, hwt⟩

/-- Witness for C2: the failed placement of the 2-cube in the 1-cube bin,
with the resulting item state given explicitly. -/
theorem c2_witness :
    unitBin = unitBin ∧ bigItemAfter.position = bigItem.position ∧
    bigItemAfter.rotation_type = RotationType.WDH ∧
    bigItemAfter.width = bigItem.width ∧
    bigItemAfter.height = bigItem.height ∧
    bigItemAfter.depth = bigItem.depth ∧
    bigItemAfter.weight = bigItem.weight :=
  c2_put_item_failure_state unitBin bigItem (0, 0, 0) unitBin bigItemAfter
    (by decide)

/-- C3: the claim states that Bin fill_ratio returns 0 on a zero-capacity
bin and never fails there; in the source Bin.get_fill_ratio divides
without a guard and raises ZeroDivisionError on zero capacity. This
counterexample evaluates it on a bin of capacity 0. -/
theorem c3_counterexample :
    zeroBin.get_capacity = 0 ∧ zeroBin.get_fill_ratio = none ∧
      zeroBin.get_fill_ratio ≠ some 0 := by
  refine ⟨by decide, by decide, by decide⟩

/-- C3 (amended): Bin.get_fill_ratio performs an unguarded division, so it
fails (ZeroDivisionError, modelled as none) on a zero-capacity bin and
returns volume / capacity otherwise; the zero-capacity guard exists only
in AbstractPacker.get_fill_ratio, which returns 0 for total capacity 0. -/
theorem c3_fill_ratio_zero_guard :
    (∀ b : Bin, b.get_capacity = 0 → b.get_fill_ratio = none) ∧
    (∀ b : Bin, b.get_capacity ≠ 0 →
      b.get_fill_ratio = some (b.get_total_volume / b.get_capacity)) ∧
    (∀ p : Packer, p.get_capacity = 0 → p.get_fill_ratio = 0) ∧
    (∀ p : Packer, p.get_capacity ≠ 0 →
      p.get_fill_ratio = p.get_total_volume / p.get_capacity) := by
  refine ⟨fun b h => ?_, fun b h => ?_, fun p h => ?_, fun p h => ?_⟩ <;>
    simp [Bin.get_fill_ratio, Packer.get_fill_ratio, h]

/-- Witness for C3 at concrete inputs: a 0 x 1 x 1 bin and a packer
holding only that bin. -/
theorem c3_witness :
    zeroBin.get_fill_ratio = none ∧ zeroPacker.get_fill_ratio = 0 :=
  ⟨c3_fill_ratio_zero_guard.1 zeroBin (by decide),
   c3_fill_ratio_zero_guard.2.2.1 zeroPacker (by decide)⟩

/-- C4: the claim states that schematic_pack with no bin schema visits the
bins in ascending order of capacity. On packerAB the ascending baseline
order is [binB, binA] but the visited order is [binA, binB]. -/
theorem c4_counterexample :
    smaller_first_bins packerAB.bins = [binB, binA] ∧
    (schematic_pack_picked_bins packerAB none).map (List.map Prod.snd) =
      .ok [binA, binB] ∧
    [binA, binB] ≠ [binB, binA] := by
  refine ⟨by decide, by decide, by decide⟩

/-- C4 (amended): with no bin schema, schematic_pack visits the bins in
descending order of capacity: the bins are first sorted ascending by the
smaller-first baseline, and the default schema repeat(1.0) picks from the
end of the remaining list each time, yielding the reverse of the sorted
list (bigger first, as the source comment says). -/
theorem c4_default_bin_schema_descending (p : Packer) :
    (schematic_pack_picked_bins p none).map (List.map Prod.snd) =
      .ok (smaller_first_bins p.bins).reverse := by
  unfold schematic_pack_picked_bins
  simp only [Option.getD_none]
  have h := pick_all_ones (smaller_first_bins p.bins).enum
  rw [List.enum_length] at h
  rw [h]
  simp [Except.map, List.map_reverse, List.enum_map_snd]

/-- C5: the claim states that every consumed pick value outside [0, 1]
makes the picking step fail. With one remaining element the computed
index is round(abs(v) * 0) = 0 for every v, so the out-of-range value 5
still yields the element. -/
theorem c5_counterexample :
    schematic_picker [(7 : ℕ)] [(5 : ℚ)] = .ok [7] ∧ ¬ ((5 : ℚ) ≤ 1) := by
  refine ⟨by decide, by norm_num⟩

/-- C5 (amended): the picker fails with the insufficient-pick-values error
exactly when the schema is exhausted while elements remain (in particular
a schema of in-range values shorter than the list always ends in that
error), and a picking step fails with the out-of-range error precisely
when the computed index round(abs(v) * (n - 1)) is at least the remaining
count n; a value outside [0, 1] whose index lands in range still yields an
element. -/
theorem c5_picker_error_conditions :
    (∀ (α : Type) (items : List α), items ≠ [] →
      schematic_picker items [] = .error "not enough pick values") ∧
    (∀ (α : Type) (x : α) (xs : List α) (v : ℚ) (schema : List ℚ),
      (x :: xs).length ≤ (pyRound (|v| * (((x :: xs).length - 1 : ℕ) : ℚ))).toNat →
      schematic_picker (x :: xs) (v :: schema) =
        .error "pick values have to be in range [0, 1]") ∧
    (∀ (α : Type) (schema : List ℚ) (items : List α),
      (∀ v ∈ schema, 0 ≤ v ∧ v ≤ 1) → schema.length < items.length →
      schematic_picker items schema = .error "not enough pick values") := by
  refine ⟨fun α items hne => ?_, fun α x xs v schema h => ?_,
    fun α schema items hv hlen => ?_⟩
  · cases items with
    | nil => exact absurd rfl hne
    | cons a t => rfl
  · exact schematic_picker_step_err x xs v schema h
  · exact picker_insufficient schema items hv hlen

/-- Witness for C5 at concrete inputs. -/
theorem c5_witness :
    schematic_picker [(7 : ℕ), 8] [] = .error "not enough pick values" ∧
    schematic_picker [(7 : ℕ), 8] [(5 : ℚ)] =
      .error "pick values have to be in range [0, 1]" ∧
    schematic_picker [(7 : ℕ), 8, 9] [(0 : ℚ), 1] =
      .error "not enough pick values" :=
  ⟨c5_picker_error_conditions.1 ℕ [7, 8] (by decide),
   c5_picker_error_conditions.2.1 ℕ 7 [8] 5 [] (by decide),
   c5_picker_error_conditions.2.2 ℕ [0, 1] [7, 8, 9] (by decide) (by decide)⟩

/-- replace_back with a part exactly as long as the gene replaces the
whole data. -/
theorem replace_back_full (g : Gene) (part : List ℚ)
    (hg : g.data.length = g.length) (hp : part.length = g.length)
    (hv : (part.all fun v => 0 ≤ v ∧ v ≤ 1) = true) :
    g.replace_back part = .ok { g with data := part, fitness := none } := by
  unfold Gene.replace_back Gene.check_valid_data
  by_cases hz : part.length = 0
  · have hpart : part = [] := List.length_eq_zero.mp hz
    subst hpart
    simp only [List.length_nil, if_pos rfl]
    have hlen : g.length = 0 := by omega
    simp [hlen]
  · rw [if_neg hz]
    have ht : g.data.length - part.length = 0 := by omega
    rw [ht, List.take_zero, List.nil_append]
    have hv2 : ∀ x ∈ part, 0 ≤ x ∧ x ≤ 1 := by simpa using hv
    simp only [hp]
    simp
    exact hv2

/-- replace_back with an empty part on a gene of positive length empties
the data, and the validation then fails with the data-count error. -/
theorem replace_back_empty_err (g : Gene) (hlen : 1 ≤ g.length) :
    g.replace_back [] = .error "invalid data count" := by
  unfold Gene.replace_back Gene.check_valid_data
  simp only [List.length_nil, if_pos rfl]
  rw [if_pos (by simpa using by omega)]

/-- C6: the claim states that crossover at split index equal to the gene
length is a no-op. On two one-value genes the call raises the
invalid-data-count error instead: gene1[1:] is empty and
data[-0:] = data[0:] wipes the whole array. -/
theorem c6_counterexample :
    recombine_genes g01 g11 1 = .error "invalid data count" ∧
    recombine_genes g01 g11 1 ≠ .ok (g01, g11) := by
  refine ⟨by decide, by decide⟩

/-- C6 (amended): for equal-length genes with valid data, crossover at
split index 0 swaps the entire contents of the two genes (and taints their
fitness); crossover at split index equal to the (positive) gene length is
not a no-op but fails with the invalid-data-count ValueError, because the
empty tail makes replace_back assign to the slice data[-0:], which is the
whole array. -/
theorem c6_recombine_boundary_indices :
    (∀ g1 g2 : Gene, g1.data.length = g1.length →
      g2.data.length = g2.length → g1.length = g2.length →
      (g1.data.all fun v => 0 ≤ v ∧ v ≤ 1) = true →
      (g2.data.all fun v => 0 ≤ v ∧ v ≤ 1) = true →
      recombine_genes g1 g2 0 =
        .ok ({ g1 with data := g2.data, fitness := none },
             { g2 with data := g1.data, fitness := none })) ∧
    (∀ g1 g2 : Gene, g1.data.length = g1.length →
      g2.data.length = g2.length → g1.length = g2.length → 1 ≤ g1.length →
      recombine_genes g1 g2 g1.length = .error "invalid data count") := by
  constructor
  · intro g1 g2 h1 h2 h3 hv1 hv2
    have e1 := replace_back_full g1 g2.data h1 (by omega) hv2
    have e2 := replace_back_full g2 g1.data h2 (by omega) hv1
    simp only [recombine_genes, List.drop_zero, e1, e2]
    rfl
  · intro g1 g2 h1 h2 h3 hlen
    have hd2 : g2.data.drop g1.length = [] := by
      apply List.drop_eq_nil_of_le
      omega
    simp only [recombine_genes, hd2, replace_back_empty_err g1 hlen]
    rfl

/-- Witness for C6 on two concrete two-value genes. -/
theorem c6_witness :
    recombine_genes gA2 gB2 0 =
      .ok ({ gA2 with data := gB2.data, fitness := none },
           { gB2 with data := gA2.data, fitness := none }) ∧
    recombine_genes gA2 gB2 gA2.length = .error "invalid data count" :=
  ⟨c6_recombine_boundary_indices.1 gA2 gB2 (by decide) (by decide) (by decide)
      (by decide) (by decide),
   c6_recombine_boundary_indices.2 gA2 gB2 (by decide) (by decide) (by decide)
      (by decide)⟩

/-- Mapping the fitness extraction over genes whose fitness is all 0. -/
theorem mapM_fitness_zero (genes : List Gene)
    (h : ∀ g ∈ genes, g.fitness = some 0) :
    (genes.mapM fun g =>
      match g.fitness with
      | some f => Except.ok f
      | none => Except.error "unsupported operand type for sum: NoneType") =
    .ok (List.replicate genes.length (0 : ℚ)) := by
  induction genes with
  | nil => rfl
  | cons g t ih =>
    rw [List.mapM_cons, h g (by simp),
      ih (fun u hu => h u (by simp [hu]))]
    rfl

/-- C8: the claim states that a zero-fitness generation gets uniform
non-zero selection weights. On two genes of fitness 0 the wheel weights
are 0/1 = 0 each, not the uniform 1/2, and drawing from the wheel raises
the zero-total-weight ValueError of random.choices. -/
theorem c8_counterexample :
    make_wheel [gz1, gz2] = .ok ⟨[gz1, gz2], [0, 0]⟩ ∧
    ([(0 : ℚ), 0] ≠ [1/2, 1/2]) ∧
    exceptError (WheelOfFortune.pick ⟨[gz1, gz2], [0, 0]⟩ 2 rand0) =
      some "Total of weights must be greater than zero" := by
  refine ⟨by decide, by decide, by decide⟩

/-- C8 (amended): when every gene of the generation has fitness 0, the
fallback in _make_wheel only replaces the zero denominator by 1, so every
gene receives weight 0/1 = 0 - all-zero weights, not uniform ones - and
any subsequent pick on the wheel fails with the zero-total-weight error
instead of drawing each gene with equal non-zero probability. -/
theorem c8_zero_fitness_wheel (genes : List Gene)
    (h : ∀ g ∈ genes, g.fitness = some 0) :
    make_wheel genes = .ok ⟨genes, List.replicate genes.length 0⟩ ∧
    (genes ≠ [] → ∀ (count : ℕ) (r : RandState),
      exceptError
        (WheelOfFortune.pick ⟨genes, List.replicate genes.length 0⟩ count r) =
        some "Total of weights must be greater than zero") := by
  constructor
  · unfold make_wheel
    rw [mapM_fitness_zero genes h, except_bind_ok]
    have hsum : (List.replicate genes.length (0 : ℚ)).sum = 0 := by
      simp
    simp [hsum]
  · intro hne count r
    unfold WheelOfFortune.pick
    rw [if_neg (by simp)]
    rw [if_neg (by simpa using hne)]
    rw [if_pos (by simp)]
    rfl

/-- Witness for C8 on the two concrete zero-fitness genes. -/
theorem c8_witness :
    make_wheel [gz1, gz2] = .ok ⟨[gz1, gz2], List.replicate 2 0⟩ ∧
    exceptError (WheelOfFortune.pick ⟨[gz1, gz2], List.replicate 2 0⟩ 2 rand0) =
      some "Total of weights must be greater than zero" :=
  ⟨(c8_zero_fitness_wheel [gz1, gz2] (by decide)).1,
   (c8_zero_fitness_wheel [gz1, gz2] (by decide)).2 (by decide) 2 rand0⟩

/-- C7: the claim states that once execute has entered the generation loop
the solver counts as executed, so adding a gene or calling execute again
fails. The loop body assigns self.run = run with run counting from 0, and
is_executed is bool(self.run): after a run with max_runs = 1 (the solver
given here measures one generation, meets its fitness target of 0 and
breaks with run = 0) the solver is still not marked executed, a further
add_gene succeeds, and a second execute call runs instead of raising. -/
theorem c7_solver_not_marked_executed :
    (c7run.toOption.map fun s => (s.run, s.is_executed)) = some (0, false) ∧
    (c7run.bind fun s => s.add_gene zeroGene).isOk = true ∧
    (c7run.bind fun s => s.execute clock0 rand0 1000000).isOk = true := by
  refine ⟨by decide, by decide, by decide⟩

/-- On attempts that never beat the initial best ratio of 0, the
shuffle_pack loop keeps its incoming best packer. -/
theorem shuffle_pack_loop_no_improvement (p : Packer)
    (shuffles : ℕ → (List Bin → List Bin) × (List Item → List Item)) :
    ∀ (fuel k : ℕ) (best : Packer),
      (∀ j, k ≤ j → j < k + fuel → ∃ np : Packer,
        shuffle_attempt p (shuffles j) = .ok np ∧ np.get_fill_ratio ≤ 0) →
      shuffle_pack_loop p shuffles k fuel 0 best = .ok best := by
  intro fuel
  induction fuel with
  | zero => intro k best _; rfl
  | succ m ih =>
    intro k best h
    obtain ⟨np, hok, hle⟩ := h k (le_refl k) (by omega)
    unfold shuffle_pack_loop
    rw [hok, except_bind_ok]
    rw [if_neg (not_lt.mpr hle)]
    exact ih (k + 1) best (fun j hj1 hj2 => h j (by omega) (by omega))

/-- C10: when the packer is in its initial state and no shuffled attempt
reaches a fill ratio strictly above 0, shuffle_pack returns the input
packer object itself, unmodified and still unpacked. -/
theorem c10_shuffle_pack_returns_input (p : Packer) (attempts : ℕ)
    (shuffles : ℕ → (List Bin → List Bin) × (List Item → List Item))
    (h1 : 1 ≤ attempts)
    (h2 : ∀ k, k < attempts → ∃ np : Packer,
      shuffle_attempt p (shuffles k) = .ok np ∧ np.get_fill_ratio ≤ 0) :
    shuffle_pack p attempts shuffles = .ok p := by
  unfold shuffle_pack
  rw [if_neg (by omega)]
  exact shuffle_pack_loop_no_improvement p shuffles attempts 0 p
    (fun j hj1 hj2 => h2 j (by omega))

/-- Witness for C10: a packer with one unit bin and no items; its single
shuffled attempt packs nothing and has fill ratio 0, so the input packer
is returned. -/
theorem c10_witness :
    shuffle_pack pOne 1 (fun _ => (id, id)) = .ok pOne :=
  c10_shuffle_pack_returns_input pOne 1 (fun _ => (id, id)) (by omega)
    (fun k hk => ⟨pOnePacked, by
      have hk0 : k = 0 := by omega
      subst hk0
      decide, by decide⟩)

/-- C9: the source tests start_time - t1 > max_time, with the operands of
the subtraction swapped; since the perf_counter readings are monotone the
difference is never positive, so the time-budget break is never taken for
any positive budget, no matter how far the elapsed time exceeds it. -/
theorem c9_time_budget_branch_never_taken (start_time t1 max_time : ℚ)
    (h1 : start_time ≤ t1) (h2 : 0 < max_time) :
    GeneticSolver.time_budget_exceeded start_time t1 max_time = false := by
  unfold GeneticSolver.time_budget_exceeded
  apply decide_eq_false
  intro hcontra
  have : start_time - t1 ≤ 0 := by linarith
  simp only [gt_iff_lt] at hcontra
  linarith

/-- Witness for C9: elapsed time 10 with a budget of 1 does not trigger
the break. -/
theorem c9_witness :
    GeneticSolver.time_budget_exceeded 0 10 1 = false :=
  c9_time_budget_branch_never_taken 0 10 1 (by norm_num) (by norm_num)

end BinPacking
